import Mathlib

/-!
# Verification of the `sched` job-scheduling daemon's grammar parser and occurrence resolver

This file gives a shallow embedding of the schedule-grammar parser, the
occurrence resolver and the repeat projectors of the `sched` daemon
(`Job.parsePlan`, `Job.Parse`, `parseDate`, `parseTime`, `parseMinuteSecond`,
`parseDayOfWeek`, `parseDayOfMonth`, `parseDuration`, `between`, `Job.hasLog`,
`Job.nextHourRepeat`, `Job.nextDayRepeat`, `Job.nextWeekRepeat`,
`Job.nextMonthRepeat`), and proves properties of the embedding.

Modelling conventions:
* `time.Time` (always in one fixed local zone, which the program never leaves)
  is modelled as `Int`: seconds since 0000-03-01 00:00:00 local time.
  `time.Duration` is modelled in whole seconds (the program only ever builds
  durations that are whole multiples of a second).
* Go's proleptic-Gregorian calendar conversions (`time.Date` normalisation,
  `Time.Date`, `Time.Day`, `Time.Weekday`, `Time.Clock`) are modelled with the
  standard era-based civil-calendar algorithms (days grouped in 400-year eras
  of 146097 days).  Inside one era all quantities are non-negative, so the
  era-local computations are carried out in `Nat`; the era index is an `Int`.
* Strings are processed as `List Char` (`String.data`), with the Go regular
  expressions of `parsePlan` translated into explicit character-level
  matchers, preserving their anchoring (several of the source patterns are
  only anchored on one side because `^`/`$` bind to one alternative).
* The `for` loops of the weekly/monthly projectors that advance a candidate
  one day at a time are modelled with an explicit fuel parameter; `none`
  means the loop has not exited within the given fuel.
-/

/-! ## Basic character and list utilities -/

deriving instance DecidableEq for Except

/-- Seconds since 0000-03-01 00:00:00 in the fixed local zone. -/
abbrev Time := Int

/-- The three lifecycle states of a `Plan` (Go constants `EXPIRED`, `NOW`, `WAIT`). -/
inductive State where
  | EXPIRED
  | NOW
  | WAIT
deriving DecidableEq

/-- Split a character list at every occurrence of `sep`, keeping empty pieces,
like Go's `strings.Split` with a one-character separator. -/
def splitCh (sep : Char) : List Char → List (List Char)
  | [] => [[]]
  | c :: r =>
    if c = sep then [] :: splitCh sep r
    else
      match splitCh sep r with
      | t :: ts => (c :: t) :: ts
      | [] => [[c]]

/-- Count occurrences of a character, like Go's `strings.Count` with a
one-character substring. -/
def countCh (c : Char) : List Char → Nat
  | [] => 0
  | d :: r => (if d = c then 1 else 0) + countCh c r

/-- Leading run of ASCII digits and the remainder. -/
def spanDigits : List Char → List Char × List Char
  | [] => ([], [])
  | c :: r =>
    if c.isDigit then
      let (ds, rest) := spanDigits r
      (c :: ds, rest)
    else ([], c :: r)

/-- Numeric value of a digit run. -/
def natOfDigits (ds : List Char) : Nat :=
  ds.foldl (fun acc c => 10 * acc + (c.toNat - '0'.toNat)) 0

/-- All characters are ASCII letters (`[a-z]` under the `(?i)` flag). -/
def allAlpha (l : List Char) : Bool := l.all (fun c => c.isAlpha)

/-- Join chunks with single spaces, like Go's `strings.Join(c, " ")`. -/
def joinSpaces : List (List Char) → List Char
  | [] => []
  | [t] => t
  | t :: r => t ++ ' ' :: joinSpaces r

/-! ## Calendar model (Go `time` package behaviour)

Era-based civil-calendar conversion: `doe` is the day-of-era in `[0, 146097)`,
`yoe` the year-of-era in `[0, 400)`, `doy` the day-of-year counted from
March 1, `mp` the March-based month index in `[0, 12)`. -/

/-- Day-of-era of an absolute day number. -/
def doeOf (z : Int) : Nat := (z.emod 146097).toNat

/-- Year-of-era from a day-of-era. -/
def yoeOf (doe : Nat) : Nat :=
  (doe - doe / 1460 + doe / 36524 - doe / 146096) / 365

/-- Day-of-year (March-based) from a day-of-era. -/
def doyOf (doe : Nat) : Nat :=
  doe - (365 * yoeOf doe + yoeOf doe / 4 - yoeOf doe / 100)

/-- March-based month index in `[0, 12)` from a day-of-era. -/
def mpOf (doe : Nat) : Nat := (5 * doyOf doe + 2) / 153

/-- Day-of-month in `[1, 31]` from a day-of-era. -/
def domOf (doe : Nat) : Nat := doyOf doe - (153 * mpOf doe + 2) / 5 + 1

/-- Civil month in `[1, 12]` from a day-of-era. -/
def monthOf (doe : Nat) : Nat :=
  if mpOf doe < 10 then mpOf doe + 3 else mpOf doe - 9

/-- Civil `(year, month, day)` of an absolute day number
(Go `Time.Date`, restricted to the date part). -/
def civilFromDays (z : Int) : Int × Nat × Nat :=
  let doe := doeOf z
  (z.fdiv 146097 * 400 + (yoeOf doe : Int) + (if monthOf doe ≤ 2 then 1 else 0),
   monthOf doe, domOf doe)

/-- Absolute day number of the first day of month `m ∈ [1,12]` of year `y`. -/
def daysFromCivilFirst (y : Int) (m : Nat) : Int :=
  let yAdj : Int := if m ≤ 2 then y - 1 else y
  let era : Int := yAdj.fdiv 400
  let yoe : Nat := (yAdj - era * 400).toNat
  let mp : Nat := if 3 ≤ m then m - 3 else m + 9
  era * 146097 + ((yoe * 365 + yoe / 4 - yoe / 100 + (153 * mp + 2) / 5 : Nat) : Int)

/-- Go's `time.Date(year, month, day, hh, mm, ss, 0, time.Local)`.
The month is normalised into `[1,12]` by borrowing from the year (Go `norm`);
all remaining out-of-range fields (including `day = 0` or `day > 31`) are
resolved by plain offset arithmetic, exactly as Go's epoch-day computation
does. -/
def mkTime (year month day hh mm ss : Int) : Time :=
  let m0 := month - 1
  let y := year + m0.fdiv 12
  let m : Nat := (m0.emod 12).toNat + 1
  (daysFromCivilFirst y m + (day - 1)) * 86400 + hh * 3600 + mm * 60 + ss

/-- Absolute day number of a time (Go's date truncation in local time). -/
def daysOf (t : Time) : Int := t.fdiv 86400

/-- Go `Time.Day()`. -/
def dayOfMonth (t : Time) : Nat := domOf (doeOf (daysOf t))

/-- Go `Time.Weekday()` (`0` = Sunday).  0000-03-01 is a Wednesday and
146097 is divisible by 7, so the offset is 3. -/
def weekday (t : Time) : Nat := ((daysOf t + 3).emod 7).toNat

/-- Civil date of a time (Go `Time.Date()`). -/
def nowYMD (now : Time) : Int × Nat × Nat := civilFromDays (daysOf now)

/-- Hour of day of a time (the hour component of Go `Time.Clock()`). -/
def nowHour (t : Time) : Int := (t.emod 86400).fdiv 3600

/-! ## Token matchers

`Job.parsePlan` classifies each space-separated token with Go regular
expressions.  Note that in `datePattern` and `dayOfWeekPattern` the anchors
`^` and `$` bind to the first and last alternative only, so the middle
alternatives are unanchored; the matchers below preserve this. -/

/-- Head of the remainder after the second dash of a date must be a digit
(`[0-9]{1,2}` unanchored at the end matches one digit and ignores the rest). -/
def headDigit : List Char → Bool
  | c :: _ => c.isDigit
  | [] => false

/-- Match `[0-9]{1,2}-[0-9]{1,2}` followed by anything. -/
def dmdTail : List Char → Bool
  | a :: '-' :: r => a.isDigit && headDigit r
  | a :: b :: '-' :: r => a.isDigit && b.isDigit && headDigit r
  | _ => false

/-- First alternative of `datePattern`:
`^([0-9]{2})?[0-9]{2}-[0-9]{1,2}-[0-9]{1,2}` (anchored at the start only). -/
def matchDateA : List Char → Bool
  | a :: b :: '-' :: r => a.isDigit && b.isDigit && dmdTail r
  | a :: b :: c :: d :: '-' :: r =>
      a.isDigit && b.isDigit && c.isDigit && d.isDigit && dmdTail r
  | _ => false

/-- Second alternative of `datePattern`: `[0-9]{1,2}-[0-9]{1,2}$`
(anchored at the end only). -/
def matchDateB (s : List Char) : Bool :=
  match s.reverse with
  | a :: '-' :: b :: _ => a.isDigit && b.isDigit
  | a :: b :: '-' :: c :: _ => a.isDigit && b.isDigit && c.isDigit
  | _ => false

/-- Go `datePattern.MatchString`:
`^([0-9]{2})?[0-9]{2}-[0-9]{1,2}-[0-9]{1,2}|[0-9]{1,2}-[0-9]{1,2}$`. -/
def matchDate (s : List Char) : Bool := matchDateA s || matchDateB s

/-- A chunk between colons is one or two digits. -/
def len12Digits (l : List Char) : Bool :=
  (l.length = 1 || l.length = 2) && l.all (fun c => c.isDigit)

/-- Go `timePattern.MatchString`: `^[0-9]{1,2}:[0-9]{1,2}(:[0-9]{1,2})?$`. -/
def matchTime (s : List Char) : Bool :=
  match splitCh ':' s with
  | [a, b] => len12Digits a && len12Digits b
  | [a, b, c] => len12Digits a && len12Digits b && len12Digits c
  | _ => false

/-- Go `minuteSecondPattern.MatchString`: `^[0-9]{1,2}(:[0-9]{1,2})?$`. -/
def matchMinuteSecond (s : List Char) : Bool :=
  match splitCh ':' s with
  | [a] => len12Digits a
  | [a, b] => len12Digits a && len12Digits b
  | _ => false

/-- Case-insensitive occurrence of the three-letter pattern `p1 p2 p3`
anywhere in the token (the unanchored middle alternatives of
`dayOfWeekPattern`). -/
def containsSub3 (p1 p2 p3 : Char) : List Char → Bool
  | c1 :: c2 :: c3 :: r =>
      (c1.toLower = p1 && c2.toLower = p2 && c3.toLower = p3)
        || containsSub3 p1 p2 p3 (c2 :: c3 :: r)
  | _ => false

/-- Last alternative of `dayOfWeekPattern`: `sat[a-z]*$` (case-insensitive,
anchored at the end only). -/
def satLetterEnd : List Char → Bool
  | c1 :: c2 :: c3 :: r =>
      (c1.toLower = 's' && c2.toLower = 'a' && c3.toLower = 't' && allAlpha r)
        || satLetterEnd (c2 :: c3 :: r)
  | _ => false

/-- Go `dayOfWeekPattern.MatchString`:
`(?i)^sun[a-z]*|mon[a-z]*|tue[a-z]*|wed[a-z]*|thu[a-z]*|fri[a-z]*|sat[a-z]*$`. -/
def matchDayOfWeek (s : List Char) : Bool :=
  (s.map Char.toLower).take 3 = ['s', 'u', 'n']
    || containsSub3 'm' 'o' 'n' s
    || containsSub3 't' 'u' 'e' s
    || containsSub3 'w' 'e' 'd' s
    || containsSub3 't' 'h' 'u' s
    || containsSub3 'f' 'r' 'i' s
    || satLetterEnd s

/-- The two-letter ordinal suffix `(st|nd|rd|th)`, case-insensitively. -/
def ordSuffix (x y : Char) : Bool :=
  (x.toLower = 's' && y.toLower = 't') || (x.toLower = 'n' && y.toLower = 'd')
    || (x.toLower = 'r' && y.toLower = 'd') || (x.toLower = 't' && y.toLower = 'h')

/-- Go `dayOfMonthPattern.MatchString`: `(?i)^[0-9]{1,2}(st|nd|rd|th)$`. -/
def matchDayOfMonth : List Char → Bool
  | [a, x, y] => a.isDigit && ordSuffix x y
  | [a, b, x, y] => a.isDigit && b.isDigit && ordSuffix x y
  | _ => false

/-- Go `durationPattern.MatchString`: `(?i)^~[0-9]+(h[a-z]*|m[a-z]*|s[a-z]*)$`. -/
def matchDuration : List Char → Bool
  | '~' :: r =>
    let (ds, r2) := spanDigits r
    !ds.isEmpty
      && (match r2 with
          | u :: rest =>
              (u.toLower = 'h' || u.toLower = 'm' || u.toLower = 's') && allAlpha rest
          | [] => false)
  | _ => false

/-! ## Scanning helpers (Go `fmt.Sscanf` on digit tokens) -/

/-- One `%d` conversion: a non-empty run of digits (the tokens fed to
`Sscanf` here never carry signs or spaces). -/
def scanNum (s : List Char) : Option (Int × List Char) :=
  let (ds, r) := spanDigits s
  if ds.isEmpty then none else some ((natOfDigits ds : Int), r)

/-- `fmt.Sscanf(spec, "%d<sep>%d", ...)`; `none` when fewer than two
items scan. -/
def sscanf2 (sep : Char) (s : List Char) : Option (Int × Int) :=
  match scanNum s with
  | some (a, c :: r) =>
    if c = sep then
      match scanNum r with
      | some (b, _) => some (a, b)
      | none => none
    else none
  | _ => none

/-- `fmt.Sscanf(spec, "%d<sep>%d<sep>%d", ...)`; `none` when fewer than three
items scan. -/
def sscanf3 (sep : Char) (s : List Char) : Option (Int × Int × Int) :=
  match scanNum s with
  | some (a, c :: r) =>
    if c = sep then
      match sscanf2 sep r with
      | some (b, d) => some (a, b, d)
      | none => none
    else none
  | _ => none

/-! ## Parser state and field parsers -/

/-- The mutable locals of `Job.parsePlan`'s token loop (zero-valued at entry,
like Go's variable declarations). -/
structure ParseSt where
  year : Int := 0
  month : Int := 0
  day : Int := 0
  hour : Int := 0
  minute : Int := 0
  second : Int := 0
  isRepeat : Bool := false
  isHourRepeat : Bool := false
  isDayRepeat : Bool := false
  isWeekRepeat : Bool := false
  isMonthRepeat : Bool := false
  dayOfWeek : Nat := 0
  duration : Int := 0
deriving DecidableEq

/-- The zero value of the parse state. -/
def initSt : ParseSt := {}

/-- Go `parseDate`.  With two dashes the year/month/day scan and the
`year < 1000` two-digit-year offset; with one dash the source runs
`n, err := fmt.Sscanf(spec, "%d-%d", &month, &day)` and then tests
`n != 3 || err != nil` — a two-verb `Sscanf` returns `n ≤ 2`, so the test
always fails and this branch always reports `parse date`.  With any other
dash count nothing happens. -/
def parseDate (spec : List Char) (st : ParseSt) : Except String ParseSt :=
  let dc := countCh '-' spec
  if dc = 2 then
    match sscanf3 '-' spec with
    | some (y, m, d) =>
      let y := if y < 1000 then y + 2000 else y
      .ok { st with year := y, month := m, day := d }
    | none => .error "parse date"
  else if dc = 1 then
    .error "parse date"
  else .ok st

/-- Go `parseTime`. -/
def parseTime (spec : List Char) (st : ParseSt) : Except String ParseSt :=
  let sc := countCh ':' spec
  if sc = 2 then
    match sscanf3 ':' spec with
    | some (h, m, s) => .ok { st with hour := h, minute := m, second := s }
    | none => .error "parse time"
  else if sc = 1 then
    match sscanf2 ':' spec with
    | some (h, m) => .ok { st with hour := h, minute := m }
    | none => .error "parse time"
  else .ok st

/-- Go `parseMinuteSecond`. -/
def parseMinuteSecond (spec : List Char) (st : ParseSt) : Except String ParseSt :=
  if spec.contains ':' then
    match sscanf2 ':' spec with
    | some (m, s) => .ok { st with minute := m, second := s }
    | none => .error "parse minute:second"
  else
    match scanNum spec with
    | some (m, _) => .ok { st with minute := m }
    | none => .error "parse minute"

/-- Go `parseDayOfWeek`: lowercase the token and test the seven weekday
prefixes in order (`0` = Sunday). -/
def parseDayOfWeek (spec : List Char) : Option Nat :=
  let l := spec.map Char.toLower
  if l.take 3 = ['s', 'u', 'n'] then some 0
  else if l.take 3 = ['m', 'o', 'n'] then some 1
  else if l.take 3 = ['t', 'u', 'e'] then some 2
  else if l.take 3 = ['w', 'e', 'd'] then some 3
  else if l.take 3 = ['t', 'h', 'u'] then some 4
  else if l.take 3 = ['f', 'r', 'i'] then some 5
  else if l.take 3 = ['s', 'a', 't'] then some 6
  else none

/-- First maximal digit run in the token (Go `regexp [0-9]+ FindString`)
converted with `strconv.Atoi`, as in Go `parseDayOfMonth`;
`none` when the token holds no digit. -/
def parseDayOfMonthVal : List Char → Option Nat
  | [] => none
  | c :: r =>
    if c.isDigit then
      let (ds, _) := spanDigits (c :: r)
      some (natOfDigits ds)
    else parseDayOfMonthVal r

/-- Go `parseDuration`: extract `~(digits)(unit...)` and dispatch on the first
letter of the unit.  The call sites only reach this after `durationPattern`
matched, so the extraction always succeeds there; on a non-matching token the
state is returned unchanged. -/
def parseDuration (spec : List Char) (st : ParseSt) : ParseSt :=
  match spec with
  | '~' :: r =>
    let (ds, r2) := spanDigits r
    if ds.isEmpty then st
    else
      match r2 with
      | u :: rest =>
        if allAlpha (u :: rest) then
          let n : Int := (natOfDigits ds : Int)
          if u.toLower = 'h' then { st with duration := 3600 * n }
          else if u.toLower = 'm' then { st with duration := 60 * n }
          else if u.toLower = 's' then { st with duration := n }
          else st
        else st
      | [] => st
  | _ => st

/-- One iteration of `Job.parsePlan`'s token-classification `switch`,
with the cases in source order.  Unknown tokens only print a warning and
leave the state unchanged. -/
def stepSpec (st : ParseSt) (spec : List Char) : Except String ParseSt :=
  if st.isRepeat = false && matchDate spec then parseDate spec st
  else if st.isRepeat = false && matchTime spec then parseTime spec st
  else if spec = "every".data then .ok { st with isRepeat := true }
  else if spec = "hour".data && st.isRepeat then .ok { st with isHourRepeat := true }
  else if spec = "day".data && st.isRepeat then .ok { st with isDayRepeat := true }
  else if st.isRepeat && matchDayOfWeek spec then
    match parseDayOfWeek spec with
    | some w => .ok { st with dayOfWeek := w, isWeekRepeat := true }
    | none => .error "parse day of week"
  else if st.isWeekRepeat && matchTime spec then parseTime spec st
  else if st.isRepeat && matchDayOfMonth spec then
    match parseDayOfMonthVal spec with
    | some d => .ok { st with day := (d : Int), isMonthRepeat := true }
    | none => .error "parse day of month"
  else if st.isMonthRepeat && matchTime spec then parseTime spec st
  else if st.isHourRepeat && matchMinuteSecond spec then parseMinuteSecond spec st
  else if st.isDayRepeat && matchTime spec then parseTime spec st
  else if matchDuration spec then .ok (parseDuration spec st)
  else .ok st

/-- The whole token loop of `Job.parsePlan`: fold `stepSpec` over the specs,
stopping at the first error. -/
def foldSpecs (st : ParseSt) : List (List Char) → Except String ParseSt
  | [] => .ok st
  | spec :: rest =>
    match stepSpec st spec with
    | .error e => .error e
    | .ok st1 => foldSpecs st1 rest

/-! ## Repeat projectors -/

/-- The duration clamp at the head of each repeat projector
(`if duration > cap { duration = cap }`). -/
def clampDuration (cap d : Int) : Int := if d > cap then cap else d

/-- Go `between`: `t.After(start) && t.Before(end) || t == start || t == end`
(`&&` binds tighter than `||`). -/
def between (t start e : Time) : Bool :=
  (decide (start < t) && decide (t < e)) || decide (t = start) || decide (t = e)

/-- Go `Job.hasLog`: some logged timestamp lies in `[start, e]`, with the same
inclusive comparison as `between`. -/
def hasLog (log : List Time) (start e : Time) : Bool :=
  log.any (fun u =>
    (decide (start < u) && decide (u < e)) || decide (u = start) || decide (u = e))

/-- Fuel bound used when evaluating the day-stepping loops concretely. -/
def loopFuel : Nat := 1000

/-- The candidate occurrence built by `Job.nextHourRepeat`: today's date and
the current hour from `time.Now()`, with the anchored minute and second. -/
def hourCandidate (now minute second : Int) : Time :=
  mkTime (nowYMD now).1 ((nowYMD now).2.1 : Int) ((nowYMD now).2.2 : Int)
    (nowHour now) minute second

/-- The candidate occurrence built by `Job.nextDayRepeat` (and as the loop
seed by `Job.nextWeekRepeat`): today's date with the anchored time of day. -/
def dayCandidate (now h minute second : Int) : Time :=
  mkTime (nowYMD now).1 ((nowYMD now).2.1 : Int) ((nowYMD now).2.2 : Int)
    h minute second

/-- The `for t.Weekday() != dayOfWeek { t = t.Add(time.Hour * 24) }` loop,
fuelled; `none` means the loop has not exited within `fuel` steps. -/
def advanceToWeekday (dow : Nat) : Nat → Time → Option Time
  | 0, _ => none
  | fuel + 1, t =>
    if weekday t = dow then some t else advanceToWeekday dow fuel (t + 86400)

/-- The `for t.Day() != day { t = t.Add(time.Hour * 24) }` loop, fuelled. -/
def advanceToDay (day : Int) : Nat → Time → Option Time
  | 0, _ => none
  | fuel + 1, t =>
    if (dayOfMonth t : Int) = day then some t else advanceToDay day fuel (t + 86400)

/-- The candidate occurrence of `Job.nextWeekRepeat`: today's date with the
anchored time, advanced day by day to the anchored weekday. -/
def weekCandidate (now : Time) (dow : Nat) (h mi s : Int) : Option Time :=
  advanceToWeekday dow loopFuel (dayCandidate now h mi s)

/-- The candidate occurrence of `Job.nextMonthRepeat`: `time.Date` built with
the anchored day-of-month (which normalises out-of-range days), advanced day
by day until the day-of-month matches the anchor. -/
def monthCandidate (now : Time) (day h mi s : Int) : Option Time :=
  advanceToDay day loopFuel
    (mkTime (nowYMD now).1 ((nowYMD now).2.1 : Int) day h mi s)

/-- Go `Job.nextHourRepeat`. -/
def nextHourRepeat (log : List Time) (now dur minute second : Int) : Time × State :=
  let d := clampDuration 3600 dur
  let t := hourCandidate now minute second
  let tEnd := t + d
  if between now t tEnd && !hasLog log t tEnd then (t, State.NOW)
  else if now > t then (t + 3600, State.WAIT)
  else (t, State.WAIT)

/-- Go `Job.nextDayRepeat`. -/
def nextDayRepeat (log : List Time) (now dur h minute second : Int) : Time × State :=
  let d := clampDuration 86400 dur
  let t := dayCandidate now h minute second
  let tEnd := t + d
  if between now t tEnd && !hasLog log t tEnd then (t, State.NOW)
  else if now > t then (t + 86400, State.WAIT)
  else (t, State.WAIT)

/-- Go `Job.nextWeekRepeat` (fuelled weekday search). -/
def nextWeekRepeat (log : List Time) (now dur : Int) (dow : Nat) (h mi s : Int) :
    Option (Time × State) :=
  let d := clampDuration 604800 dur
  match weekCandidate now dow h mi s with
  | none => none
  | some t =>
    let tEnd := t + d
    if between now t tEnd && !hasLog log t tEnd then some (t, State.NOW)
    else if now > t then
      (advanceToWeekday dow loopFuel (t + 86400)).map (fun u => (u, State.WAIT))
    else some (t, State.WAIT)

/-- Go `Job.nextMonthRepeat` (fuelled day-of-month search). -/
def nextMonthRepeat (log : List Time) (now dur day h mi s : Int) :
    Option (Time × State) :=
  let d := clampDuration 2592000 dur
  match monthCandidate now day h mi s with
  | none => none
  | some t =>
    let tEnd := t + d
    if between now t tEnd && !hasLog log t tEnd then some (t, State.NOW)
    else if now > t then
      (advanceToDay day loopFuel (t + 86400)).map (fun u => (u, State.WAIT))
    else some (t, State.WAIT)

/-! ## Plan resolution (`Job.parsePlan`) -/

/-- One resolved occurrence (Go `Plan`). -/
structure Plan where
  time : Time
  comment : List Char
  state : State
deriving DecidableEq

/-- The non-repeating state classification of `Job.parsePlan`
(`state = WAIT; if now.After(start) && now.Before(end) { NOW }
else if now.After(end) { EXPIRED }`). -/
def noRepeatState (now strt dur : Int) : State :=
  if now > strt ∧ now < strt + dur then State.NOW
  else if now > strt + dur then State.EXPIRED
  else State.WAIT

/-- The dispatch at the end of `Job.parsePlan`: non-repeating lines build an
absolute timestamp, repeating lines delegate to the projector of the first
set cadence flag, and `every` with no cadence flag is `invalid time spec`. -/
def resolvePlan (log : List Time) (now : Time) (st : ParseSt) (comment : List Char) :
    Option (Except String Plan) :=
  if st.isRepeat = false then
    let strt := mkTime st.year st.month st.day st.hour st.minute st.second
    some (.ok { time := strt, comment := comment,
                state := noRepeatState now strt st.duration })
  else if st.isHourRepeat then
    let r := nextHourRepeat log now st.duration st.minute st.second
    some (.ok { time := r.1, comment := comment, state := r.2 })
  else if st.isDayRepeat then
    let r := nextDayRepeat log now st.duration st.hour st.minute st.second
    some (.ok { time := r.1, comment := comment, state := r.2 })
  else if st.isWeekRepeat then
    (nextWeekRepeat log now st.duration st.dayOfWeek st.hour st.minute st.second).map
      (fun r => .ok { time := r.1, comment := comment, state := r.2 })
  else if st.isMonthRepeat then
    (nextMonthRepeat log now st.duration st.day st.hour st.minute st.second).map
      (fun r => .ok { time := r.1, comment := comment, state := r.2 })
  else some (.error "invalid time spec")

/-- The comment split at the head of `Job.parsePlan`: tokens before the first
`#`-token are specs, the first `#`-token loses its `#`, and it and everything
after it form the comment. -/
def splitComment : List (List Char) → List (List Char) × List (List Char)
  | [] => ([], [])
  | tok :: rest =>
    match tok with
    | '#' :: tokTail => ([], tokTail :: rest)
    | _ =>
      let (s, c) := splitComment rest
      (tok :: s, c)

/-- Go `Job.parsePlan`: split the line on single spaces, separate the comment,
classify the specs, then resolve.  `none` means a projector loop has not
terminated within its fuel. -/
def parsePlan (log : List Time) (now : Time) (input : List Char) :
    Option (Except String Plan) :=
  let toks := splitCh ' ' input
  let (specs, comments) := splitComment toks
  match foldSpecs initSt specs with
  | .error e => some (.error e)
  | .ok st => resolvePlan log now st (joinSpaces comments)

/-! ## Job file parsing (`Job.Parse` line state machine) -/

/-- The two states of `Job.Parse`'s line loop. -/
inductive PState where
  | plan
  | args
deriving DecidableEq

/-- The fields of a `Job` filled in by `Job.Parse`. -/
structure JobAcc where
  cmd : List Char := []
  args : List (List Char) := []
  plans : List Plan := []
deriving DecidableEq

/-- Does the line start with `"and "`? -/
def startsAnd : List Char → Bool
  | 'a' :: 'n' :: 'd' :: ' ' :: _ => true
  | _ => false

/-- Go `strings.TrimPrefix(line, "and ")`. -/
def stripAnd : List Char → List Char
  | 'a' :: 'n' :: 'd' :: ' ' :: r => r
  | l => l

/-- The line loop of `Job.Parse` over the non-empty, non-comment lines:
the first line and every later `and `-prefixed line (while still parsing
plans) each contribute one `Plan`; the first other line is the command and
every remaining line is one argument. -/
def parseJobGo (log : List Time) (now : Time) :
    List (List Char) → Bool → PState → JobAcc → Option (Except String JobAcc)
  | [], _, _, acc => some (.ok acc)
  | l :: ls, first, PState.plan, acc =>
    if first || startsAnd l then
      match parsePlan log now (stripAnd l) with
      | none => none
      | some (.error _) => some (.error "parse datetime")
      | some (.ok p) =>
        parseJobGo log now ls false PState.plan { acc with plans := acc.plans ++ [p] }
    else parseJobGo log now ls false PState.args { acc with cmd := l }
  | l :: ls, _, PState.args, acc =>
    parseJobGo log now ls false PState.args { acc with args := acc.args ++ [l] }

/-- Go `Job.Parse`, starting at the first line in the plan-parsing state. -/
def parseJob (log : List Time) (now : Time) (lines : List (List Char)) :
    Option (Except String JobAcc) :=
  parseJobGo log now lines true PState.plan {}

/-- `parsePlan` when it returns a successfully parsed plan. -/
def parsePlanOk (log : List Time) (now : Time) (input : List Char) : Option Plan :=
  match parsePlan log now input with
  | some (.ok p) => some p
  | _ => none

/-! ## Sample instants used by concrete witnesses and counterexamples -/

/-- 2024-06-01 (a Saturday) 08:00:00 local time. -/
def tSat8 : Time := mkTime 2024 6 1 8 0 0

/-- 2024-06-01 08:30:00 local time. -/
def tSat830 : Time := mkTime 2024 6 1 8 30 0

/-- 2024-06-01 09:00:00 local time. -/
def tSat9 : Time := mkTime 2024 6 1 9 0 0

/-! ## Helper lemmas -/

/-- The civil day-of-month is always at least 1. -/
theorem domOf_pos (doe : Nat) : 1 ≤ domOf doe := by
  unfold domOf; omega

/-- `Time.Day()` is always at least 1, whatever the instant. -/
theorem dayOfMonth_pos (t : Time) : 1 ≤ dayOfMonth t := domOf_pos _

/-- The day-stepping search for day-of-month 0 never exits, with any fuel:
no date has day-of-month 0. -/
theorem advanceToDay_zero_anchor :
    ∀ (fuel : Nat) (t : Time), advanceToDay 0 fuel t = none := by
  intro fuel
  induction fuel with
  | zero => intro t; rfl
  | succ n ih =>
    intro t
    have h := dayOfMonth_pos t
    unfold advanceToDay
    rw [if_neg (by omega)]
    exact ih (t + 86400)

/-! ## C1: non-repeating state classification -/

/-- **C1** counterexample.  At the boundary instant `now = t` (with duration
2 hours) the claim requires `NOW`, but the resolver classifies the plan
`WAIT`: the comparisons of the non-repeating branch are strict. -/
theorem c1_boundary_counterexample :
    tSat8 ≤ tSat8 ∧ tSat8 ≤ tSat8 + 7200
      ∧ noRepeatState tSat8 tSat8 7200 = State.WAIT := by decide

/-- **C1** (amended).  For a non-repeating line with start `t` and duration
`d`, at evaluation instant `now`, the resolved state is `EXPIRED` iff
`now > t + d`, `NOW` iff `t < now < t + d` (both boundary instants
`now = t` and `now = t + d` are excluded and classify as `WAIT`), and
`WAIT` otherwise. -/
theorem c1_state_classification (now t d : Int) :
    (noRepeatState now t d = State.EXPIRED ↔ now > t + d)
    ∧ (noRepeatState now t d = State.NOW ↔ (t < now ∧ now < t + d))
    ∧ (noRepeatState now t d = State.WAIT
        ↔ (now ≤ t + d ∧ ¬(t < now ∧ now < t + d))) := by
  unfold noRepeatState
  split_ifs with h1 h2 <;> refine ⟨?_, ?_, ?_⟩ <;> (simp_all; try omega)

/-! ## C3: duration clamping -/

/-- **C3**.  Each repeat projector clamps its duration to the cadence's
natural period (≤ 1 h hourly, ≤ 24 h daily, ≤ 7 d weekly, ≤ 30 d monthly);
in particular `~2h` parses to 7200 s and the hourly clamp reduces it to one
hour, and the spec's other clamp examples evaluate likewise. -/
theorem c3_duration_clamped :
    (∀ d : Int, clampDuration 3600 d ≤ 3600)
    ∧ (∀ d : Int, clampDuration 86400 d ≤ 86400)
    ∧ (∀ d : Int, clampDuration 604800 d ≤ 604800)
    ∧ (∀ d : Int, clampDuration 2592000 d ≤ 2592000)
    ∧ (parseDuration "~2h".data initSt).duration = 7200
    ∧ clampDuration 3600 7200 = 3600
    ∧ clampDuration 86400 (48 * 3600) = 86400
    ∧ clampDuration 604800 (10 * 86400) = 604800
    ∧ clampDuration 2592000 (40 * 86400) = 2592000 := by
  refine ⟨?_, ?_, ?_, ?_, by decide, by decide, by decide, by decide, by decide⟩ <;>
    (intro d; unfold clampDuration; split <;> omega)

/-! ## C4: the monthly day-advancing search is unbounded in the source -/

/-- **C4** (code bug).  The token `0th` parses to day-of-month anchor 0, and
for that anchor the day-advancing loop of `Job.nextMonthRepeat` never finds a
matching date — the day-of-month of every date is at least 1 — so the loop
never terminates (in the fuelled model: it fails for every fuel bound, and the
monthly projector yields no result).  The spec instead requires a bounded
search that fails the resolution. -/
theorem c4_month_anchor_zero_never_terminates :
    parseDayOfMonthVal "0th".data = some 0
    ∧ (∀ (fuel : Nat) (t : Time), advanceToDay 0 fuel t = none)
    ∧ (∀ (log : List Time) (now dur h mi s : Int),
        nextMonthRepeat log now dur 0 h mi s = none) := by
  refine ⟨by decide, advanceToDay_zero_anchor, ?_⟩
  intro log now dur h mi s
  unfold nextMonthRepeat monthCandidate
  rw [advanceToDay_zero_anchor]

/-! ## C2: run-log de-duplication -/

/-- **C2** counterexample.  At `now = t` with a run-log entry at `t`, the
hourly projector suppresses `NOW` but returns `WAIT` with the *same*
occurrence `t` (still inside the logged window), not a later one: the
advance step only runs when `now` is strictly after `t`. -/
theorem c2_same_occurrence_counterexample :
    hasLog [tSat8] tSat8 (tSat8 + 3600) = true
    ∧ between tSat8 tSat8 (tSat8 + 3600) = true
    ∧ nextHourRepeat [tSat8] tSat8 3600 0 0 = (tSat8, State.WAIT) := by decide

/-- **C2** (amended).  For every cadence, if some run-log timestamp falls
inside the projected occurrence window `[t, tEnd]` (inclusive), the projector
never returns `NOW` for that window: it returns `WAIT`, advancing the
occurrence by one period exactly when `now` is strictly after the window
start (and keeping the same occurrence when `now = t`). -/
theorem c2_logged_window_never_fires :
    (∀ (log : List Time) (now dur mi s : Int),
        hasLog log (hourCandidate now mi s)
            (hourCandidate now mi s + clampDuration 3600 dur) = true →
        nextHourRepeat log now dur mi s
          = ((if now > hourCandidate now mi s then hourCandidate now mi s + 3600
              else hourCandidate now mi s), State.WAIT))
    ∧ (∀ (log : List Time) (now dur h mi s : Int),
        hasLog log (dayCandidate now h mi s)
            (dayCandidate now h mi s + clampDuration 86400 dur) = true →
        nextDayRepeat log now dur h mi s
          = ((if now > dayCandidate now h mi s then dayCandidate now h mi s + 86400
              else dayCandidate now h mi s), State.WAIT))
    ∧ (∀ (log : List Time) (now dur : Int) (dow : Nat) (h mi s : Int) (t : Time),
        weekCandidate now dow h mi s = some t →
        hasLog log t (t + clampDuration 604800 dur) = true →
        nextWeekRepeat log now dur dow h mi s
          = (if now > t then
               (advanceToWeekday dow loopFuel (t + 86400)).map (fun u => (u, State.WAIT))
             else some (t, State.WAIT)))
    ∧ (∀ (log : List Time) (now dur day h mi s : Int) (t : Time),
        monthCandidate now day h mi s = some t →
        hasLog log t (t + clampDuration 2592000 dur) = true →
        nextMonthRepeat log now dur day h mi s
          = (if now > t then
               (advanceToDay day loopFuel (t + 86400)).map (fun u => (u, State.WAIT))
             else some (t, State.WAIT))) := by
  refine ⟨?_, ?_, ?_, ?_⟩
  · intro log now dur mi s hl
    unfold nextHourRepeat
    simp only [hl, Bool.not_true, Bool.and_false]
    rw [if_neg (by simp)]
    split <;> rfl
  · intro log now dur h mi s hl
    unfold nextDayRepeat
    simp only [hl, Bool.not_true, Bool.and_false]
    rw [if_neg (by simp)]
    split <;> rfl
  · intro log now dur dow h mi s t hc hl
    unfold nextWeekRepeat
    rw [hc]
    simp only [hl, Bool.not_true, Bool.and_false]
    rw [if_neg (by simp)]
  · intro log now dur day h mi s t hc hl
    unfold nextMonthRepeat
    rw [hc]
    simp only [hl, Bool.not_true, Bool.and_false]
    rw [if_neg (by simp)]

/-- **C2** witness: the amended theorem applied at 2024-06-01 08:00 with one
run-log entry at the window start, for all four cadences. -/
theorem c2_logged_window_witness :
    nextHourRepeat [tSat8] tSat8 3600 0 0 = (tSat8, State.WAIT)
    ∧ nextDayRepeat [tSat8] tSat8 3600 8 0 0 = (tSat8, State.WAIT)
    ∧ nextWeekRepeat [tSat8] tSat8 3600 6 8 0 0 = some (tSat8, State.WAIT)
    ∧ nextMonthRepeat [tSat8] tSat8 3600 1 8 0 0 = some (tSat8, State.WAIT) := by
  refine ⟨?_, ?_, ?_, ?_⟩
  · have h := c2_logged_window_never_fires.1 [tSat8] tSat8 3600 0 0 (by decide)
    rw [h]; decide
  · have h := c2_logged_window_never_fires.2.1 [tSat8] tSat8 3600 8 0 0 (by decide)
    rw [h]; decide
  · have h := c2_logged_window_never_fires.2.2.1 [tSat8] tSat8 3600 6 8 0 0 tSat8
      (by decide) (by decide)
    rw [h]; decide
  · have h := c2_logged_window_never_fires.2.2.2 [tSat8] tSat8 3600 1 8 0 0 tSat8
      (by decide) (by decide)
    rw [h]; decide

/-! ## C5: lines with no cadence and no date -/

/-- **C5** counterexample.  The line `08:00` resolves no absolute date token
and activates no cadence, yet `parsePlan` surfaces no error: it silently
produces a Plan whose timestamp is built from the zero-valued date fields
(`time.Date(0, 0, 0, 8, 0, 0)`), classified `EXPIRED`. -/
theorem c5_zero_date_counterexample :
    parsePlan [] tSat9 "08:00".data
      = some (.ok { time := mkTime 0 0 0 8 0 0, comment := [],
                    state := State.EXPIRED }) := by decide

/-- **C5** (amended).  The `invalid time spec` parse failure is surfaced only
when a repeat was requested and no cadence resolved: whenever the token loop
ends with `isRepeat` false — in particular when no absolute date token was
resolved either — the resolver returns a Plan built from the (possibly still
zero-valued) date fields, with no error. -/
theorem c5_no_repeat_never_errors (log : List Time) (now : Time) (st : ParseSt)
    (c : List Char) (h : st.isRepeat = false) :
    resolvePlan log now st c
      = some (.ok { time := mkTime st.year st.month st.day st.hour st.minute st.second,
                    comment := c,
                    state := noRepeatState now
                      (mkTime st.year st.month st.day st.hour st.minute st.second)
                      st.duration }) := by
  unfold resolvePlan
  rw [if_pos h]

/-- **C5** witness: the amended theorem applied to the parse state produced
by the line `08:00`. -/
theorem c5_no_repeat_witness :
    resolvePlan [] tSat9 { initSt with hour := 8 } []
      = some (.ok { time := mkTime 0 0 0 8 0 0, comment := [],
                    state := State.EXPIRED }) := by
  have h := c5_no_repeat_never_errors [] tSat9 { initSt with hour := 8 } [] rfl
  rw [h]; decide

/-! ## C6: conflicting cadence tokens -/

/-- **C6** counterexample.  The line `every hour day` activates both the
hourly and the daily cadence flags, yet it is not a parse error: resolution
silently proceeds with the hourly projector (precedence, not rejection). -/
theorem c6_conflicting_cadence_counterexample :
    foldSpecs initSt ["every".data, "hour".data, "day".data]
      = .ok { initSt with isRepeat := true, isHourRepeat := true, isDayRepeat := true }
    ∧ parsePlan [] tSat830 "every hour day".data
      = some (.ok { time := tSat8 + 3600, comment := [], state := State.WAIT }) := by
  exact ⟨by decide, by decide⟩

/-- **C6** (amended).  More than one cadence flag may be active at once; the
resolver then picks the projector by fixed precedence (hour, then day, then
week, then month) instead of failing.  The `invalid time spec` parse error
occurs exactly when `every` was seen and no cadence flag at all was set. -/
theorem c6_cadence_precedence :
    (∀ (log : List Time) (now : Time) (st : ParseSt) (c : List Char),
        resolvePlan log now st c = some (.error "invalid time spec")
          ↔ (st.isRepeat = true ∧ st.isHourRepeat = false ∧ st.isDayRepeat = false
              ∧ st.isWeekRepeat = false ∧ st.isMonthRepeat = false))
    ∧ (∀ (log : List Time) (now : Time) (st : ParseSt) (c : List Char),
        st.isRepeat = true → st.isHourRepeat = true →
        resolvePlan log now st c
          = some (.ok { time := (nextHourRepeat log now st.duration st.minute st.second).1,
                        comment := c,
                        state := (nextHourRepeat log now st.duration st.minute st.second).2 }))
    ∧ (∀ (log : List Time) (now : Time) (st : ParseSt) (c : List Char),
        st.isRepeat = true → st.isHourRepeat = false → st.isDayRepeat = true →
        resolvePlan log now st c
          = some (.ok { time := (nextDayRepeat log now st.duration st.hour st.minute st.second).1,
                        comment := c,
                        state := (nextDayRepeat log now st.duration st.hour st.minute st.second).2 }))
    ∧ (∀ (log : List Time) (now : Time) (st : ParseSt) (c : List Char),
        st.isRepeat = true → st.isHourRepeat = false → st.isDayRepeat = false →
        st.isWeekRepeat = true →
        resolvePlan log now st c
          = (nextWeekRepeat log now st.duration st.dayOfWeek st.hour st.minute st.second).map
              (fun r => .ok { time := r.1, comment := c, state := r.2 }))
    ∧ (∀ (log : List Time) (now : Time) (st : ParseSt) (c : List Char),
        st.isRepeat = true → st.isHourRepeat = false → st.isDayRepeat = false →
        st.isWeekRepeat = false → st.isMonthRepeat = true →
        resolvePlan log now st c
          = (nextMonthRepeat log now st.duration st.day st.hour st.minute st.second).map
              (fun r => .ok { time := r.1, comment := c, state := r.2 })) := by
  refine ⟨?_, ?_, ?_, ?_, ?_⟩
  · intro log now st c
    unfold resolvePlan
    split_ifs with h1 h2 h3 h4 h5
    · simp_all
    · simp_all
    · simp_all
    · rcases hw : nextWeekRepeat log now st.duration st.dayOfWeek st.hour st.minute st.second
        with _ | r <;> simp_all
    · rcases hm : nextMonthRepeat log now st.duration st.day st.hour st.minute st.second
        with _ | r <;> simp_all
    · simp_all
  · intro log now st c h1 h2
    unfold resolvePlan
    rw [if_neg (by simp [h1]), if_pos h2]
  · intro log now st c h1 h2 h3
    unfold resolvePlan
    rw [if_neg (by simp [h1]), if_neg (by simp [h2]), if_pos h3]
  · intro log now st c h1 h2 h3 h4
    unfold resolvePlan
    rw [if_neg (by simp [h1]), if_neg (by simp [h2]), if_neg (by simp [h3]), if_pos h4]
  · intro log now st c h1 h2 h3 h4 h5
    unfold resolvePlan
    rw [if_neg (by simp [h1]), if_neg (by simp [h2]), if_neg (by simp [h3]),
      if_neg (by simp [h4]), if_pos h5]

/-- **C6** witness: the amended theorem's precedence clauses applied to
concrete parse states with several cadence flags set at once. -/
theorem c6_cadence_precedence_witness :
    resolvePlan [] tSat830
        { initSt with isRepeat := true, isHourRepeat := true, isDayRepeat := true } []
      = some (.ok { time := (nextHourRepeat [] tSat830 0 0 0).1, comment := [],
                    state := (nextHourRepeat [] tSat830 0 0 0).2 })
    ∧ resolvePlan [] tSat830
        { initSt with isRepeat := true, isDayRepeat := true, isMonthRepeat := true } []
      = some (.ok { time := (nextDayRepeat [] tSat830 0 0 0 0).1, comment := [],
                    state := (nextDayRepeat [] tSat830 0 0 0 0).2 })
    ∧ resolvePlan [] tSat830
        { initSt with isRepeat := true, isWeekRepeat := true, isMonthRepeat := true,
                      dayOfWeek := 6, hour := 8 } []
      = (nextWeekRepeat [] tSat830 0 6 8 0 0).map
          (fun r => .ok { time := r.1, comment := [], state := r.2 })
    ∧ resolvePlan [] tSat830
        { initSt with isRepeat := true, isMonthRepeat := true, day := 1, hour := 8 } []
      = (nextMonthRepeat [] tSat830 0 1 8 0 0).map
          (fun r => .ok { time := r.1, comment := [], state := r.2 }) := by
  exact ⟨c6_cadence_precedence.2.1 [] tSat830 _ [] rfl rfl,
    c6_cadence_precedence.2.2.1 [] tSat830 _ [] rfl rfl rfl,
    c6_cadence_precedence.2.2.2.1 [] tSat830 _ [] rfl rfl rfl rfl,
    c6_cadence_precedence.2.2.2.2 [] tSat830 _ [] rfl rfl rfl rfl rfl⟩

/-! ## C7: `MM-DD` date tokens can never parse -/

/-- **C7** (code bug).  A date token in `MM-DD` form always fails: the
one-dash branch of `parseDate` scans two values with a two-verb `Sscanf` but
then requires an item count of 3, which a two-verb scan can never produce.
So the spec scenario `06-01 08:00` is rejected with `parse date` instead of
resolving to June 1 of the current year. -/
theorem c7_month_day_date_unparseable :
    parseDate "06-01".data initSt = .error "parse date"
    ∧ parsePlan [] tSat9 "06-01 08:00".data = some (.error "parse date") := by
  exact ⟨by decide, by decide⟩

/-! ## C8: two-digit years -/

/-- **C8** counterexample.  The date token `24-13-1` carries the two-digit
year 24 (< 1000), and `parseDate` offsets it to 2024; but `time.Date`
normalises month 13 into January of the next year, so the resolved
timestamp's civil year is 2025, not `24 + 2000`. -/
theorem c8_normalised_year_counterexample :
    parseDate "24-13-1".data initSt
      = .ok { initSt with year := 2024, month := 13, day := 1 }
    ∧ parsePlan [] tSat9 "24-13-1 08:00".data
      = some (.ok { time := mkTime 2024 13 1 8 0 0, comment := [],
                    state := State.WAIT })
    ∧ (civilFromDays (daysOf (mkTime 2024 13 1 8 0 0))).1 = 2025 := by
  exact ⟨by decide, by decide, by decide⟩

/-- **C8** (amended).  For a two-dash date token whose scanned year is below
1000, the year *field* used to build the timestamp is the parsed value plus
2000 (the timestamp's civil year coincides with that field only when the
month and day are in calendar range, since out-of-range values normalise
across year boundaries). -/
theorem c8_two_digit_year_offset (spec : List Char) (st : ParseSt) (y m d : Int)
    (hscan : sscanf3 '-' spec = some (y, m, d)) (hdc : countCh '-' spec = 2)
    (hy : y < 1000) :
    parseDate spec st = .ok { st with year := y + 2000, month := m, day := d } := by
  unfold parseDate
  rw [hdc, if_pos rfl, hscan]
  simp [hy]

/-- **C8** witness: the amended theorem applied to the token `24-06-01`. -/
theorem c8_two_digit_year_witness :
    parseDate "24-06-01".data initSt
      = .ok { initSt with year := 2024, month := 6, day := 1 } := by
  have h := c8_two_digit_year_offset "24-06-01".data initSt 24 6 1
    (by decide) (by decide) (by decide)
  rw [h]; decide

/-! ## C9: the `Job.Parse` line state machine -/

/-- `parsePlanOk` succeeds exactly when `parsePlan` terminates with an
`ok` plan. -/
theorem parsePlanOk_eq_some (log : List Time) (now : Time) (x : List Char) (p : Plan) :
    parsePlanOk log now x = some p ↔ parsePlan log now x = some (.ok p) := by
  unfold parsePlanOk
  rcases h : parsePlan log now x with _ | e
  · simp
  · cases e <;> simp

/-- Once in the argument state, every remaining line is appended as exactly
one positional argument. -/
theorem parseJobGo_args (log : List Time) (now : Time) :
    ∀ (rest : List (List Char)) (acc : JobAcc),
      parseJobGo log now rest false PState.args acc
        = some (.ok { acc with args := acc.args ++ rest }) := by
  intro rest
  induction rest with
  | nil => intro acc; cases acc; simp [parseJobGo]
  | cons l ls ih =>
    intro acc
    rw [parseJobGo, ih]
    simp

/-- While in the plan state after the first line: each `and `-prefixed line
contributes exactly one plan (prefix stripped), the first other line becomes
the command, and the rest become the arguments. -/
theorem parseJobGo_plans (log : List Time) (now : Time) (cmdLine : List Char)
    (rest : List (List Char)) (hcmd : startsAnd cmdLine = false) :
    ∀ (andLines : List (List Char)) (ps : List Plan) (acc : JobAcc),
      (∀ l ∈ andLines, startsAnd l = true) →
      andLines.mapM (fun l => parsePlanOk log now (stripAnd l)) = some ps →
      parseJobGo log now (andLines ++ cmdLine :: rest) false PState.plan acc
        = some (.ok { cmd := cmdLine, args := acc.args ++ rest,
                      plans := acc.plans ++ ps }) := by
  intro andLines
  induction andLines with
  | nil =>
    intro ps acc _ hmap
    simp only [List.mapM_nil, Option.pure_def, Option.some_inj] at hmap
    subst hmap
    rw [List.nil_append, parseJobGo]
    rw [if_neg (by simp [hcmd])]
    rw [parseJobGo_args]
    simp
  | cons l ls ih =>
    intro ps acc hall hmap
    rw [List.mapM_cons] at hmap
    rcases hp : parsePlanOk log now (stripAnd l) with _ | p
    · rw [hp] at hmap; simp at hmap
    · rw [hp] at hmap
      rcases hps : ls.mapM (fun l => parsePlanOk log now (stripAnd l)) with _ | ps1
      · rw [hps] at hmap; simp at hmap
      · rw [hps] at hmap
        simp at hmap
        subst hmap
        rw [List.cons_append, parseJobGo]
        rw [if_pos (by simp [hall l (List.mem_cons_self l ls)])]
        rw [(parsePlanOk_eq_some log now (stripAnd l) p).mp hp]
        dsimp only
        rw [ih ps1 { acc with plans := acc.plans ++ [p] }
          (fun x hx => hall x (List.mem_cons_of_mem l hx)) hps]
        simp

/-- **C9**.  For a job file's non-empty, non-comment lines: the first line,
and every following `and `-prefixed line, each produce exactly one Plan (with
the `and ` prefix stripped before grammar parsing); the first later line not
starting with `and ` becomes the command; every remaining line becomes
exactly one positional argument. -/
theorem c9_plan_chaining (log : List Time) (now : Time) (l0 : List Char)
    (andLines : List (List Char)) (cmdLine : List Char) (rest : List (List Char))
    (ps : List Plan)
    (hand : ∀ l ∈ andLines, startsAnd l = true)
    (hcmd : startsAnd cmdLine = false)
    (hplans : (l0 :: andLines).mapM (fun l => parsePlanOk log now (stripAnd l))
        = some ps) :
    parseJob log now (l0 :: (andLines ++ cmdLine :: rest))
      = some (.ok { cmd := cmdLine, args := rest, plans := ps }) := by
  rw [List.mapM_cons] at hplans
  rcases hp : parsePlanOk log now (stripAnd l0) with _ | p0
  · rw [hp] at hplans; simp at hplans
  · rw [hp] at hplans
    rcases hps : andLines.mapM (fun l => parsePlanOk log now (stripAnd l)) with _ | ps1
    · rw [hps] at hplans; simp at hplans
    · rw [hps] at hplans
      simp at hplans
      subst hplans
      unfold parseJob
      rw [parseJobGo]
      rw [if_pos (by simp)]
      rw [(parsePlanOk_eq_some log now (stripAnd l0) p0).mp hp]
      dsimp only
      rw [parseJobGo_plans log now cmdLine rest hcmd andLines ps1 _ hand hps]
      simp

/-- **C9** witness: the spec scenario — two chained lines
`2024-06-01 08:00` and `and 2024-06-02 08:00` followed by a command and one
argument line produce one Job with two Plans, independently classified
(`EXPIRED` and `WAIT` at 2024-06-01 09:00). -/
theorem c9_plan_chaining_witness :
    parseJob [] tSat9
        ["2024-06-01 08:00".data, "and 2024-06-02 08:00".data, "echo".data, "hi".data]
      = some (.ok { cmd := "echo".data, args := ["hi".data],
                    plans := [{ time := mkTime 2024 6 1 8 0 0, comment := [],
                                state := State.EXPIRED },
                              { time := mkTime 2024 6 2 8 0 0, comment := [],
                                state := State.WAIT }] }) := by
  have h := c9_plan_chaining [] tSat9 "2024-06-01 08:00".data
    ["and 2024-06-02 08:00".data] "echo".data ["hi".data]
    [{ time := mkTime 2024 6 1 8 0 0, comment := [], state := State.EXPIRED },
     { time := mkTime 2024 6 2 8 0 0, comment := [], state := State.WAIT }]
    (by decide) (by decide) (by decide)
  exact h

/-! ## C10: repeating plans are never `EXPIRED` -/

/-- **C10**.  Whatever the run log, the instant and the anchors, each repeat
projector only ever produces the states `NOW` or `WAIT`; a repeating plan is
never classified `EXPIRED` (for the fuelled weekly/monthly projectors: any
produced result). -/
theorem c10_repeat_not_expired :
    (∀ (log : List Time) (now dur mi s : Int),
        (nextHourRepeat log now dur mi s).2 ≠ State.EXPIRED)
    ∧ (∀ (log : List Time) (now dur h mi s : Int),
        (nextDayRepeat log now dur h mi s).2 ≠ State.EXPIRED)
    ∧ (∀ (log : List Time) (now dur : Int) (dow : Nat) (h mi s : Int)
          (t : Time) (st : State),
        nextWeekRepeat log now dur dow h mi s = some (t, st) → st ≠ State.EXPIRED)
    ∧ (∀ (log : List Time) (now dur day h mi s : Int) (t : Time) (st : State),
        nextMonthRepeat log now dur day h mi s = some (t, st) → st ≠ State.EXPIRED) := by
  refine ⟨?_, ?_, ?_, ?_⟩
  · intro log now dur mi s
    unfold nextHourRepeat
    dsimp only
    split_ifs <;> simp
  · intro log now dur h mi s
    unfold nextDayRepeat
    dsimp only
    split_ifs <;> simp
  · intro log now dur dow h mi s t st heq
    unfold nextWeekRepeat at heq
    rcases hc : weekCandidate now dow h mi s with _ | u
    · rw [hc] at heq; simp at heq
    · rw [hc] at heq
      dsimp only at heq
      split_ifs at heq
      · simp only [Option.some_inj, Prod.mk.injEq] at heq
        rw [← heq.2]; simp
      · rcases ha : advanceToWeekday dow loopFuel (u + 86400) with _ | v
        · rw [ha] at heq; simp at heq
        · rw [ha] at heq
          simp only [Option.map_some', Option.some_inj, Prod.mk.injEq] at heq
          rw [← heq.2]; simp
      · simp only [Option.some_inj, Prod.mk.injEq] at heq
        rw [← heq.2]; simp
  · intro log now dur day h mi s t st heq
    unfold nextMonthRepeat at heq
    rcases hc : monthCandidate now day h mi s with _ | u
    · rw [hc] at heq; simp at heq
    · rw [hc] at heq
      dsimp only at heq
      split_ifs at heq
      · simp only [Option.some_inj, Prod.mk.injEq] at heq
        rw [← heq.2]; simp
      · rcases ha : advanceToDay day loopFuel (u + 86400) with _ | v
        · rw [ha] at heq; simp at heq
        · rw [ha] at heq
          simp only [Option.map_some', Option.some_inj, Prod.mk.injEq] at heq
          rw [← heq.2]; simp
      · simp only [Option.some_inj, Prod.mk.injEq] at heq
        rw [← heq.2]; simp

/-- **C10** witness: the theorem applied to concrete evaluations of all four
projectors (the weekly one produces `NOW` inside the window, the monthly one
`WAIT` on the advanced occurrence). -/
theorem c10_repeat_not_expired_witness :
    (nextHourRepeat [] tSat8 0 0 0).2 ≠ State.EXPIRED
    ∧ (nextDayRepeat [] tSat8 0 8 0 0).2 ≠ State.EXPIRED
    ∧ State.NOW ≠ State.EXPIRED
    ∧ State.WAIT ≠ State.EXPIRED := by
  exact ⟨c10_repeat_not_expired.1 [] tSat8 0 0 0,
    c10_repeat_not_expired.2.1 [] tSat8 0 8 0 0,
    c10_repeat_not_expired.2.2.1 [] tSat8 0 6 8 0 0 tSat8 State.NOW (by decide),
    c10_repeat_not_expired.2.2.2 [] tSat830 0 1 8 0 0 (mkTime 2024 7 1 8 0 0)
      State.WAIT (by decide)⟩
